import Mathlib

/-!
# Verification of the token-bucket rate limiter (`src/app/rate_limiter.js`)

Shallow embedding of the rate-limiting middleware.  JavaScript numbers are
modelled as rationals (`ℚ`); timestamps are `Date.now()` millisecond values.
The two `Date.now()` calls made during one request (one inside
`calculateAvailableTokens`, one in `rateLimiter`) are modelled as the same
instant `now`.  Fallible store operations are modelled by an explicit result
type; a thrown-and-caught exception corresponds to the error constructor.

The module-level constants `TOKENS_PER_SECOND = 1`, `MAX_TOKENS = 10`,
`TOKEN_COST = 10` are gathered into a `Config` record so that properties can
be stated for arbitrary values; `codeConfig` is the configuration the source
hard-codes.
-/

namespace RateLimiter

/-- The process-wide configuration constants of `rate_limiter.js`
(`TOKENS_PER_SECOND`, `MAX_TOKENS`, `TOKEN_COST`). -/
structure Config where
  tokensPerSecond : ℚ
  maxTokens : ℚ
  tokenCost : ℚ
deriving Repr, DecidableEq

/-- The constants hard-coded in `rate_limiter.js` lines 11-13. -/
def codeConfig : Config := { tokensPerSecond := 1, maxTokens := 10, tokenCost := 10 }

/-- A stored bucket record: `{ lastRefill, tokens }` as serialized to Redis. -/
structure Bucket where
  lastRefill : ℚ
  tokens : ℚ
deriving Repr, DecidableEq

/-- What the store holds at a key: nothing (absent or expired), bytes whose
deserialization (`JSON.parse`) throws, or a well-formed bucket record. -/
inductive StoredVal where
  | absent
  | malformed
  | record (b : Bucket)
deriving Repr, DecidableEq

/-- Result of the underlying `redisClient.get` network call: the call itself
may error (`err`), or return the stored value. -/
inductive RedisGetResult where
  | err
  | val (v : StoredVal)
deriving Repr, DecidableEq

/-- The store environment seen by one request: what `redisClient.get` would
return for each key. -/
def StoreEnv := String → RedisGetResult

/-- An inbound request, reduced to the two fields `getClientIP` reads:
`req.headers["x-forwarded-for"]` and `req.socket.remoteAddress`.  `none`
models an absent field (JS `undefined`). -/
structure Request where
  xForwardedFor : Option String
  remoteAddress : Option String
deriving Repr, DecidableEq

/-- JavaScript truthiness of a string value: only the empty string is falsy
(among the strings an HTTP header / peer address can be). -/
def jsTruthy : Option String → Bool
  | none => false
  | some s => !(s == "")

/-- `getClientIP` (line 38): `req.headers["x-forwarded-for"] ||
req.socket.remoteAddress || null`.  JS `||` skips falsy operands, so an
empty-string header or address falls through. -/
def getClientIP (req : Request) : Option String :=
  if jsTruthy req.xForwardedFor then req.xForwardedFor
  else if jsTruthy req.remoteAddress then req.remoteAddress
  else none

/-- `getBucketFromRedis` (lines 42-54): returns `null` when disconnected;
otherwise performs the get, catching any error (including a throwing
`JSON.parse` on a malformed record) and returning `null`. -/
def getBucketFromRedis (isRedisConnected : Bool) (res : RedisGetResult) :
    Option Bucket :=
  if !isRedisConnected then none
  else
    match res with
    | .err => none
    | .val .absent => none
    | .val .malformed => none
    | .val (.record b) => some b

/-- `calculateAvailableTokens` (lines 73-93), with the store read it performs
supplied as `res`.  Absent bucket: fresh full bucket anchored at `now`.
Present bucket: `timeDiff = (now - lastRefill) / 1000` (no clamp at zero),
`tokens = min(bucket.tokens + timeDiff * TOKENS_PER_SECOND, MAX_TOKENS)`,
`lastRefill` passed through. -/
def calculateAvailableTokens (cfg : Config) (isRedisConnected : Bool)
    (res : RedisGetResult) (now : ℚ) : Bucket :=
  match getBucketFromRedis isRedisConnected res with
  | none => { lastRefill := now, tokens := cfg.maxTokens }
  | some bucket =>
    let timeDiff := (now - bucket.lastRefill) / 1000
    let tokensToAdd := timeDiff * cfg.tokensPerSecond
    let availableTokens := min (bucket.tokens + tokensToAdd) cfg.maxTokens
    { lastRefill := bucket.lastRefill, tokens := availableTokens }

/-- The response `rateLimiter` produces: `next()` or the 429 JSON body
(lines 135-141). -/
inductive Response where
  | next
  | reject (status : ℕ) (retryAfter : ℤ) (availableTokens : ℚ)
      (requiredTokens : ℚ)
deriving Repr, DecidableEq

/-- Observable outcome of one `rateLimiter` invocation: the response, the
bucket written by `saveBucketToRedis` (key and value; `none` when no write is
attempted), and whether the store was read. -/
structure Outcome where
  response : Response
  storeWrite : Option (String × Bucket)
  storeRead : Bool
deriving Repr, DecidableEq

/-- `rateLimiter` (lines 95-143).  Resolve the IP (absent: `next()`); if
Redis is not connected: `next()`; otherwise read the bucket, refill, and
either debit `TOKEN_COST` and allow, or write the state back and deny with
`429` and `waitTimeSeconds = ceil((TOKEN_COST - tokens) / TOKENS_PER_SECOND)`. -/
def rateLimiter (cfg : Config) (isRedisConnected : Bool) (req : Request)
    (env : StoreEnv) (now : ℚ) : Outcome :=
  match getClientIP req with
  | none => { response := .next, storeWrite := none, storeRead := false }
  | some ip =>
    if !isRedisConnected then
      { response := .next, storeWrite := none, storeRead := false }
    else
      let avail := calculateAvailableTokens cfg isRedisConnected (env ip) now
      let tokens := avail.tokens
      if tokens ≥ cfg.tokenCost then
        let remainingTokens := tokens - cfg.tokenCost
        { response := .next
          storeWrite := some (ip, { lastRefill := now, tokens := remainingTokens })
          storeRead := true }
      else
        let tokensNeeded := cfg.tokenCost - tokens
        let waitTimeSeconds := Int.ceil (tokensNeeded / cfg.tokensPerSecond)
        { response := .reject 429 waitTimeSeconds tokens cfg.tokenCost
          storeWrite := some (ip, { lastRefill := now, tokens := tokens })
          storeRead := true }

/-- Spec-words formula for §4.2 / claim C1 (stated for comparison with the
source's `calculateAvailableTokens`): on a present bucket,
`elapsed = max(0, now - lastRefill)` seconds (time values are milliseconds,
hence the division by 1000) and
`tokens = min(maxTokens, bucket.tokens + elapsed * refillRatePerSecond)`. -/
def specComputeAvailable (cfg : Config) (bucket : Bucket) (now : ℚ) : Bucket :=
  let elapsed := max 0 ((now - bucket.lastRefill) / 1000)
  { lastRefill := bucket.lastRefill
    tokens := min cfg.maxTokens (bucket.tokens + elapsed * cfg.tokensPerSecond) }

/-- Spec-words resolver for §4.3 / claim C8 (stated for comparison with the
source's `getClientIP`): the forwarding header if present, else the peer
address, else absent — presence alone, without JS truthiness. -/
def specResolveIdentity (req : Request) : Option String :=
  match req.xForwardedFor with
  | some h => some h
  | none => req.remoteAddress

/-- Amended resolver for claim C8: the forwarding header if present and
non-empty, else the peer address if present and non-empty, else absent. -/
def specResolveIdentityAmended (req : Request) : Option String :=
  match req.xForwardedFor with
  | some h => if h ≠ "" then some h else
      match req.remoteAddress with
      | some r => if r ≠ "" then some r else none
      | none => none
  | none =>
      match req.remoteAddress with
      | some r => if r ≠ "" then some r else none
      | none => none

/-! ## Connection lifecycle (claim C10)

`isRedisConnected` (line 30) starts `false`.  The single startup
`redisClient.connect()` promise (lines 31-35) resolves at most once: its
`then` handler sets the flag to `true`, its `catch` handler only logs.
`closeRedisConnection` (lines 160-166) sets the flag to `false` when it is
`true` and is a no-op otherwise.  No other exported operation writes the
flag.  We model the module state as the flag together with the phase of the
startup connect promise, and the possible events as a step relation. -/

/-- Phase of the startup `redisClient.connect()` promise: still pending,
resolved (its `then` ran), or rejected (its `catch` ran). -/
inductive ConnPhase where
  | pending
  | resolved
  | rejected
deriving Repr, DecidableEq

/-- Module-level mutable state of `rate_limiter.js` relevant to the
availability flag. -/
structure ModState where
  phase : ConnPhase
  isRedisConnected : Bool
deriving Repr, DecidableEq

/-- State at module load: flag `false`, connect promise pending (line 30). -/
def initModState : ModState := { phase := .pending, isRedisConnected := false }

/-- `closeRedisConnection` (lines 160-166): if the flag is `true`, quit the
client and set it `false`; otherwise do nothing.  Returns the new state. -/
def closeRedisConnection (s : ModState) : ModState :=
  if s.isRedisConnected then { s with isRedisConnected := false } else s

/-- One asynchronous event of the module: the startup connect promise
resolving (`then` sets the flag, possible only while pending) or rejecting
(`catch` only logs, possible only while pending), a `closeRedisConnection`
call, or a `rateLimiter` invocation (which never writes the flag). -/
inductive ModStep : ModState → ModState → Prop where
  | connectResolve (s : ModState) (h : s.phase = .pending) :
      ModStep s { phase := .resolved, isRedisConnected := true }
  | connectReject (s : ModState) (h : s.phase = .pending) :
      ModStep s { phase := .rejected, isRedisConnected := s.isRedisConnected }
  | close (s : ModState) : ModStep s (closeRedisConnection s)
  | request (s : ModState) : ModStep s s

/-- Reachability by any finite sequence of events. -/
def ModReach : ModState → ModState → Prop := Relation.ReflTransGen ModStep

/-! ## Theorems -/

/-- C1 counterexample.  The claim says the elapsed time is clamped below at
zero, so a stored `lastRefill` in the future never reduces the token count
below `bucket.tokens`.  The code has no such clamp: with the stored bucket
`{lastRefill: 1000, tokens: 5}` and `now = 0`, `calculateAvailableTokens`
returns `4` tokens while the claimed formula gives `5`, and the result is
strictly below the stored `bucket.tokens = 5`. -/
theorem c1_clamp_counterexample :
    (calculateAvailableTokens codeConfig true
        (.val (.record ⟨1000, 5⟩)) 0).tokens = 4 ∧
    (specComputeAvailable codeConfig ⟨1000, 5⟩ 0).tokens = 5 ∧
    (calculateAvailableTokens codeConfig true
        (.val (.record ⟨1000, 5⟩)) 0).tokens <
      (Bucket.mk 1000 5).tokens := by
  refine ⟨?_, ?_, ?_⟩ <;>
    norm_num [calculateAvailableTokens, getBucketFromRedis, specComputeAvailable,
      codeConfig, min_def, max_def]

/-- C1 amended: on a present bucket `calculateAvailableTokens` returns
`tokens = min(bucket.tokens + ((now - lastRefill)/1000) * refillRatePerSecond,
maxTokens)` with the elapsed time NOT clamped below at zero (a stored
`lastRefill` in the future does reduce the count); the claimed clamped
formula agrees with the code exactly when `lastRefill ≤ now`. -/
theorem c1_refill_formula (cfg : Config) (b : Bucket) (now : ℚ) :
    calculateAvailableTokens cfg true (.val (.record b)) now =
      { lastRefill := b.lastRefill
        tokens := min (b.tokens + (now - b.lastRefill) / 1000 * cfg.tokensPerSecond)
          cfg.maxTokens } ∧
    (b.lastRefill ≤ now →
      calculateAvailableTokens cfg true (.val (.record b)) now =
        specComputeAvailable cfg b now) := by
  constructor
  · rfl
  · intro h
    have hmax : max 0 ((now - b.lastRefill) / 1000) = (now - b.lastRefill) / 1000 :=
      max_eq_right (div_nonneg (sub_nonneg.mpr h) (by norm_num))
    simp only [calculateAvailableTokens, getBucketFromRedis, specComputeAvailable,
      Bool.not_true, Bool.false_eq_true, if_false, hmax]
    rw [min_comm]

/-- C1 witness: at `bucket = {lastRefill: 0, tokens: 3}`, `now = 2000`, the
hypothesis `lastRefill ≤ now` holds and the code agrees with the clamped
spec formula. -/
theorem c1_refill_formula_witness :
    (0 : ℚ) ≤ 2000 ∧
    calculateAvailableTokens codeConfig true (.val (.record ⟨0, 3⟩)) 2000 =
      specComputeAvailable codeConfig ⟨0, 3⟩ 2000 :=
  ⟨by norm_num, (c1_refill_formula codeConfig ⟨0, 3⟩ 2000).2 (by norm_num)⟩

/-- C5: with the availability flag `false`, `rateLimiter` admits every
request (`next()`), for every identity and every store state, with no store
read and no write and no denial response. -/
theorem c5_fail_open (cfg : Config) (req : Request) (env : StoreEnv) (now : ℚ) :
    rateLimiter cfg false req env now =
      { response := .next, storeWrite := none, storeRead := false } := by
  unfold rateLimiter
  cases getClientIP req <;> simp

/-- C6: an absent (or expired, hence absent) record yields exactly
`{tokens: maxTokens, lastRefill: now}`, and a never-seen client is admitted
whenever `maxTokens ≥ costPerRequest`. -/
theorem c6_fresh_client (cfg : Config) (now : ℚ) :
    calculateAvailableTokens cfg true (.val .absent) now =
      { lastRefill := now, tokens := cfg.maxTokens } ∧
    (∀ req ip env, getClientIP req = some ip → env ip = .val .absent →
      cfg.tokenCost ≤ cfg.maxTokens →
      (rateLimiter cfg true req env now).response = .next) := by
  refine ⟨rfl, ?_⟩
  intro req ip env hip henv hcost
  simp only [rateLimiter, hip, henv, calculateAvailableTokens, getBucketFromRedis,
    Bool.not_true, Bool.false_eq_true, if_false]
  rw [if_pos (ge_iff_le.mpr hcost)]

/-- C6 witness: fresh client `"1.2.3.4"` with the code's constants
(`maxTokens = tokenCost = 10`) is admitted at `now = 0`. -/
theorem c6_fresh_client_witness :
    getClientIP ⟨some "1.2.3.4", none⟩ = some "1.2.3.4" ∧
    codeConfig.tokenCost ≤ codeConfig.maxTokens ∧
    (rateLimiter codeConfig true ⟨some "1.2.3.4", none⟩
        (fun _ => .val .absent) 0).response = .next :=
  ⟨by decide, by norm_num [codeConfig],
    (c6_fresh_client codeConfig 0).2 ⟨some "1.2.3.4", none⟩ "1.2.3.4"
      (fun _ => .val .absent) (by decide) rfl (by norm_num [codeConfig])⟩

/-- C7: the token count computed by `calculateAvailableTokens` never exceeds
`maxTokens`, for every stored state, connection state and time (the absent
branch returns exactly `maxTokens`; the present branch is `min`-clamped). -/
theorem c7_ceiling_clamp (cfg : Config) (connected : Bool)
    (res : RedisGetResult) (now : ℚ) :
    (calculateAvailableTokens cfg connected res now).tokens ≤ cfg.maxTokens := by
  unfold calculateAvailableTokens
  cases getBucketFromRedis connected res with
  | none => exact le_refl _
  | some b => exact min_le_right _ _

/-- C4: on the allow path (`tokens ≥ costPerRequest`) the request is
admitted and the bucket written back is exactly
`{tokens: tokens - costPerRequest, lastRefill: now}` — exact rational
arithmetic, so the written count equals `tokens - costPerRequest` with zero
error, well within the claimed `1e-9` tolerance, and the anchor is the
current instant, not the snapshot's. -/
theorem c4_allow_debit (cfg : Config) (req : Request) (ip : String)
    (env : StoreEnv) (now : ℚ) (hip : getClientIP req = some ip)
    (hall : cfg.tokenCost ≤ (calculateAvailableTokens cfg true (env ip) now).tokens) :
    rateLimiter cfg true req env now =
      { response := .next
        storeWrite := some (ip,
          { lastRefill := now
            tokens := (calculateAvailableTokens cfg true (env ip) now).tokens -
              cfg.tokenCost })
        storeRead := true } := by
  simp only [rateLimiter, hip, Bool.not_true, Bool.false_eq_true, if_false]
  rw [if_pos (ge_iff_le.mpr hall)]

/-- C4 witness: fresh client, `tokens = 10 ≥ 10 = cost`, written count `0`
and anchor `now = 7`. -/
theorem c4_allow_debit_witness :
    getClientIP ⟨some "1.2.3.4", none⟩ = some "1.2.3.4" ∧
    codeConfig.tokenCost ≤
      (calculateAvailableTokens codeConfig true
        ((fun _ => RedisGetResult.val .absent) "1.2.3.4") 7).tokens ∧
    rateLimiter codeConfig true ⟨some "1.2.3.4", none⟩
        (fun _ => RedisGetResult.val .absent) 7 =
      { response := .next, storeWrite := some ("1.2.3.4", ⟨7, 0⟩),
        storeRead := true } := by
  have h1 : getClientIP ⟨some "1.2.3.4", none⟩ = some "1.2.3.4" := by decide
  have h2 : codeConfig.tokenCost ≤
      (calculateAvailableTokens codeConfig true
        ((fun _ => RedisGetResult.val .absent) "1.2.3.4") 7).tokens := by
    norm_num [calculateAvailableTokens, getBucketFromRedis, codeConfig]
  refine ⟨h1, h2, ?_⟩
  rw [c4_allow_debit codeConfig ⟨some "1.2.3.4", none⟩ "1.2.3.4"
    (fun _ => RedisGetResult.val .absent) 7 h1 h2]
  norm_num [calculateAvailableTokens, getBucketFromRedis, codeConfig]

/-- C3: on the deny path (`tokens < costPerRequest`) the engine writes back
the unchanged computed token count anchored at `now`, responds with HTTP
status 429, and reports
`retryAfter = ceil((costPerRequest - tokens) / refillRatePerSecond)`. -/
theorem c3_deny_path (cfg : Config) (req : Request) (ip : String)
    (env : StoreEnv) (now : ℚ) (hip : getClientIP req = some ip)
    (hlt : (calculateAvailableTokens cfg true (env ip) now).tokens < cfg.tokenCost) :
    rateLimiter cfg true req env now =
      { response := .reject 429
          (Int.ceil ((cfg.tokenCost -
              (calculateAvailableTokens cfg true (env ip) now).tokens) /
            cfg.tokensPerSecond))
          (calculateAvailableTokens cfg true (env ip) now).tokens cfg.tokenCost
        storeWrite := some (ip,
          { lastRefill := now
            tokens := (calculateAvailableTokens cfg true (env ip) now).tokens })
        storeRead := true } := by
  simp only [rateLimiter, hip, Bool.not_true, Bool.false_eq_true, if_false]
  rw [if_neg (not_le.mpr hlt)]

/-- C3 witness: an empty bucket (`{lastRefill: 0, tokens: 0}`) at `now = 0`
is denied with status 429, `retryAfter = 10`, and write `{0, 0}`. -/
theorem c3_deny_path_witness :
    getClientIP ⟨some "1.2.3.4", none⟩ = some "1.2.3.4" ∧
    (calculateAvailableTokens codeConfig true
        ((fun _ => RedisGetResult.val (.record ⟨0, 0⟩)) "1.2.3.4") 0).tokens <
      codeConfig.tokenCost ∧
    rateLimiter codeConfig true ⟨some "1.2.3.4", none⟩
        (fun _ => RedisGetResult.val (.record ⟨0, 0⟩)) 0 =
      { response := .reject 429 10 0 10
        storeWrite := some ("1.2.3.4", ⟨0, 0⟩), storeRead := true } := by
  have h1 : getClientIP ⟨some "1.2.3.4", none⟩ = some "1.2.3.4" := by decide
  have h2 : (calculateAvailableTokens codeConfig true
      ((fun _ => RedisGetResult.val (.record ⟨0, 0⟩)) "1.2.3.4") 0).tokens <
      codeConfig.tokenCost := by
    norm_num [calculateAvailableTokens, getBucketFromRedis, codeConfig, min_def]
  refine ⟨h1, h2, ?_⟩
  rw [c3_deny_path codeConfig ⟨some "1.2.3.4", none⟩ "1.2.3.4"
    (fun _ => RedisGetResult.val (.record ⟨0, 0⟩)) 0 h1 h2]
  norm_num [calculateAvailableTokens, getBucketFromRedis, codeConfig, min_def]

/-- Bounds on the computed token count: nonnegative and at most `maxTokens`,
given a nonnegative refill rate, a nonnegative ceiling, and — for a present
record — nonnegative stored tokens and a stored anchor not in the future. -/
lemma calculateAvailableTokens_bounds (cfg : Config) (res : RedisGetResult)
    (now : ℚ) (hrate : 0 ≤ cfg.tokensPerSecond) (hmax : 0 ≤ cfg.maxTokens)
    (hrec : ∀ b, res = .val (.record b) → 0 ≤ b.tokens ∧ b.lastRefill ≤ now) :
    0 ≤ (calculateAvailableTokens cfg true res now).tokens ∧
    (calculateAvailableTokens cfg true res now).tokens ≤ cfg.maxTokens := by
  rcases res with _ | (_ | _ | b)
  · exact ⟨hmax, le_refl _⟩
  · exact ⟨hmax, le_refl _⟩
  · exact ⟨hmax, le_refl _⟩
  · obtain ⟨htok, hanchor⟩ := hrec b rfl
    have hadd : 0 ≤ (now - b.lastRefill) / 1000 * cfg.tokensPerSecond :=
      mul_nonneg (div_nonneg (sub_nonneg.mpr hanchor) (by norm_num)) hrate
    exact ⟨le_min (add_nonneg htok hadd) hmax, min_le_right _ _⟩

/-- C2 counterexample.  Quantified over "every stored snapshot and every
current time", the bound fails: with the stored snapshot
`{lastRefill: 10000, tokens: 0}` (which itself satisfies
`0 ≤ tokens ≤ maxTokens`) and current time `now = 0` earlier than the
anchor, the deny path writes back `tokens = -10 < 0`. -/
theorem c2_counterexample :
    (rateLimiter codeConfig true ⟨some "1.2.3.4", none⟩
        (fun _ => RedisGetResult.val (.record ⟨10000, 0⟩)) 0).storeWrite =
      some ("1.2.3.4", ⟨0, -10⟩) ∧
    (-10 : ℚ) < 0 := by
  have h1 : getClientIP ⟨some "1.2.3.4", none⟩ = some "1.2.3.4" := by decide
  constructor
  · simp only [rateLimiter, h1, Bool.not_true, Bool.false_eq_true, if_false]
    norm_num [calculateAvailableTokens, getBucketFromRedis, codeConfig, min_def]
  · norm_num

/-- C2 amended: every bucket record the engine writes satisfies
`0 ≤ tokens ≤ maxTokens`, provided the configuration is sane
(`0 ≤ refillRatePerSecond`, `0 ≤ costPerRequest ≤ maxTokens`) and every
stored record holds nonnegative tokens with an anchor not in the future
(`lastRefill ≤ now`) — i.e. under a monotone clock; without the
`lastRefill ≤ now` restriction the bound fails. -/
theorem c2_write_bounds (cfg : Config) (connected : Bool) (req : Request)
    (env : StoreEnv) (now : ℚ) (hrate : 0 ≤ cfg.tokensPerSecond)
    (hcost : 0 ≤ cfg.tokenCost) (hcm : cfg.tokenCost ≤ cfg.maxTokens)
    (hrec : ∀ k b, env k = .val (.record b) → 0 ≤ b.tokens ∧ b.lastRefill ≤ now) :
    ∀ k w, (rateLimiter cfg connected req env now).storeWrite = some (k, w) →
      0 ≤ w.tokens ∧ w.tokens ≤ cfg.maxTokens := by
  intro k w hw
  unfold rateLimiter at hw
  rcases hip : getClientIP req with _ | ip
  · rw [hip] at hw; exact absurd hw (by simp)
  · rw [hip] at hw
    cases connected with
    | false => exact absurd hw (by simp at hw ⊢)
    | true =>
      simp only [Bool.not_true, Bool.false_eq_true, if_false] at hw
      have hmax : (0 : ℚ) ≤ cfg.maxTokens := le_trans hcost hcm
      have hb := calculateAvailableTokens_bounds cfg (env ip) now hrate hmax
        (fun b hb => hrec ip b hb)
      by_cases hge : (calculateAvailableTokens cfg true (env ip) now).tokens ≥
          cfg.tokenCost
      · rw [if_pos hge] at hw
        obtain ⟨hk, hwv⟩ := Prod.mk.injEq .. ▸ (Option.some.injEq .. ▸ hw)
        subst hwv
        exact ⟨sub_nonneg.mpr hge, le_trans (sub_le_self _ hcost) hb.2⟩
      · rw [if_neg hge] at hw
        obtain ⟨hk, hwv⟩ := Prod.mk.injEq .. ▸ (Option.some.injEq .. ▸ hw)
        subst hwv
        exact hb

/-- C2 witness: with a sane configuration, an empty store and `now = 0`, the
single write performed (the fresh-bucket allow path, writing `tokens = 0`)
satisfies the bounds. -/
theorem c2_write_bounds_witness :
    (0 : ℚ) ≤ codeConfig.tokensPerSecond ∧ (0 : ℚ) ≤ codeConfig.tokenCost ∧
    codeConfig.tokenCost ≤ codeConfig.maxTokens ∧
    (∀ k w, (rateLimiter codeConfig true ⟨some "1.2.3.4", none⟩
        (fun _ => RedisGetResult.val .absent) 0).storeWrite = some (k, w) →
      0 ≤ w.tokens ∧ w.tokens ≤ codeConfig.maxTokens) := by
  refine ⟨by norm_num [codeConfig], by norm_num [codeConfig],
    by norm_num [codeConfig], ?_⟩
  exact c2_write_bounds codeConfig true ⟨some "1.2.3.4", none⟩
    (fun _ => RedisGetResult.val .absent) 0 (by norm_num [codeConfig])
    (by norm_num [codeConfig]) (by norm_num [codeConfig])
    (fun k b hb => by exact absurd hb (by simp))

/-- C8 counterexample.  With a present but empty forwarding header and a
peer address `"10.0.0.1"`, the spec's rule ("the forwarding header if
present") yields the header value `""`, but `getClientIP` — using JS
truthiness, under which the empty string is falsy — falls through to the
peer address. -/
theorem c8_counterexample :
    getClientIP ⟨some "", some "10.0.0.1"⟩ = some "10.0.0.1" ∧
    specResolveIdentity ⟨some "", some "10.0.0.1"⟩ = some "" ∧
    getClientIP ⟨some "", some "10.0.0.1"⟩ ≠
      specResolveIdentity ⟨some "", some "10.0.0.1"⟩ := by
  refine ⟨by decide, by decide, by decide⟩

/-- C8 amended: identity resolution returns the forwarding header if present
AND non-empty, else the peer address if present and non-empty, else absent
(JS `||` skips empty strings); and whenever the result is absent the engine
admits the request with no store read and no write. -/
theorem c8_resolver (req : Request) :
    getClientIP req = specResolveIdentityAmended req ∧
    (∀ cfg connected env now, getClientIP req = none →
      rateLimiter cfg connected req env now =
        { response := .next, storeWrite := none, storeRead := false }) := by
  constructor
  · rcases req with ⟨_ | h, _ | r⟩ <;>
      simp [getClientIP, specResolveIdentityAmended, jsTruthy]
  · intro cfg connected env now h
    unfold rateLimiter
    rw [h]

/-- C8 witness: a request with neither header nor peer address resolves to
absent and is admitted without touching the store. -/
theorem c8_resolver_witness :
    getClientIP ⟨none, none⟩ = none ∧
    rateLimiter codeConfig true ⟨none, none⟩
        (fun _ => RedisGetResult.val .absent) 0 =
      { response := .next, storeWrite := none, storeRead := false } :=
  ⟨by decide, (c8_resolver ⟨none, none⟩).2 codeConfig true
    (fun _ => RedisGetResult.val .absent) 0 (by decide)⟩

/-- C9: a failing store read (`err`) and a malformed stored record are both
mapped to `none` by `getBucketFromRedis` — the error is caught, never
propagated — and `calculateAvailableTokens` then behaves exactly as on an
absent record (fresh full bucket).  Totality of the Lean function reflects
that the catch blocks make the operation never raise. -/
theorem c9_store_failure_absent (cfg : Config) (connected : Bool)
    (res : RedisGetResult) (now : ℚ)
    (h : res = .err ∨ res = .val .malformed) :
    getBucketFromRedis connected res = none ∧
    calculateAvailableTokens cfg connected res now =
      calculateAvailableTokens cfg connected (.val .absent) now := by
  rcases h with h | h <;> subst h <;> cases connected <;>
    simp [getBucketFromRedis, calculateAvailableTokens]

/-- C9 witness: a failing read at `now = 0` yields `none` and the same
result as an absent record. -/
theorem c9_store_failure_absent_witness :
    (RedisGetResult.err = RedisGetResult.err ∨
      RedisGetResult.err = .val .malformed) ∧
    getBucketFromRedis true .err = none ∧
    calculateAvailableTokens codeConfig true .err 0 =
      calculateAvailableTokens codeConfig true (.val .absent) 0 :=
  ⟨Or.inl rfl,
   (c9_store_failure_absent codeConfig true .err 0 (Or.inl rfl)).1,
   (c9_store_failure_absent codeConfig true .err 0 (Or.inl rfl)).2⟩

/-- One step preserves "flag down and connect promise settled". -/
lemma modStep_preserves_down (s s' : ModState) (h : ModStep s s')
    (hc : s.isRedisConnected = false) (hp : s.phase ≠ .pending) :
    s'.isRedisConnected = false ∧ s'.phase ≠ .pending := by
  cases h with
  | connectResolve hpend => exact absurd hpend hp
  | connectReject hpend => exact absurd hpend hp
  | close =>
    have : closeRedisConnection s = s := by simp [closeRedisConnection, hc]
    rw [this]; exact ⟨hc, hp⟩
  | request => exact ⟨hc, hp⟩

/-- Any finite sequence of steps preserves "flag down and promise settled". -/
lemma modReach_preserves_down (s s' : ModState)
    (h : Relation.ReflTransGen ModStep s s')
    (hc : s.isRedisConnected = false) (hp : s.phase ≠ .pending) :
    s'.isRedisConnected = false ∧ s'.phase ≠ .pending := by
  induction h with
  | refl => exact ⟨hc, hp⟩
  | tail _ hstep ih => exact modStep_preserves_down _ _ hstep ih.1 ih.2

/-- C10: (i) once the flag is `false` with the startup connect promise
settled, every step keeps it `false`; (ii) hence along every finite event
sequence it stays `false`; (iii) the only transition raising the flag is the
single startup connect resolution, which fires from the `pending` phase and
leaves it settled — so the flag becomes `true` at most once; (iv)
`closeRedisConnection` with the flag already `false` leaves the state
unchanged; (v) every `rateLimiter` invocation with the flag `false` admits
the request. -/
theorem c10_flag_monotone :
    (∀ s s', ModStep s s' → s.isRedisConnected = false → s.phase ≠ .pending →
      s'.isRedisConnected = false ∧ s'.phase ≠ .pending) ∧
    (∀ s s', ModReach s s' → s.isRedisConnected = false → s.phase ≠ .pending →
      s'.isRedisConnected = false) ∧
    (∀ s s', ModStep s s' → s.isRedisConnected = false →
      s'.isRedisConnected = true → s.phase = .pending ∧ s'.phase = .resolved) ∧
    (∀ s, s.isRedisConnected = false → closeRedisConnection s = s) ∧
    (∀ cfg req env now, (rateLimiter cfg false req env now).response =
      .next) := by
  refine ⟨modStep_preserves_down, ?_, ?_, ?_, ?_⟩
  · exact fun s s' h hc hp => (modReach_preserves_down s s' h hc hp).1
  · intro s s' h hc ht
    cases h with
    | connectResolve hpend => exact ⟨hpend, rfl⟩
    | connectReject hpend => rw [hc] at ht; exact absurd ht (by simp)
    | close =>
      have he : closeRedisConnection s = s := by simp [closeRedisConnection, hc]
      rw [he, hc] at ht; exact absurd ht (by simp)
    | request => rw [hc] at ht; exact absurd ht (by simp)
  · intro s hc
    simp [closeRedisConnection, hc]
  · intro cfg req env now
    unfold rateLimiter
    cases getClientIP req <;> simp

/-- C10 witness: from the failed-connect state `{phase: rejected,
connected: false}`, a concrete `closeRedisConnection` step leaves the flag
`false`. -/
theorem c10_flag_monotone_witness :
    ModReach ⟨.rejected, false⟩ (closeRedisConnection ⟨.rejected, false⟩) ∧
    (ModState.mk .rejected false).isRedisConnected = false ∧
    (ModState.mk .rejected false).phase ≠ .pending ∧
    (closeRedisConnection ⟨.rejected, false⟩).isRedisConnected = false := by
  have hreach : ModReach ⟨.rejected, false⟩
      (closeRedisConnection ⟨.rejected, false⟩) :=
    Relation.ReflTransGen.single (ModStep.close _)
  exact ⟨hreach, rfl, by decide,
    c10_flag_monotone.2.1 _ _ hreach rfl (by decide)⟩

end RateLimiter
